import Mathlib

/-!
Shallow embedding of the probability-and-odds engine of
`src/streamlit_app.py` (lines 55-75 define the pure functions; lines
78-133 the submit handler), together with theorems checking the
natural-language specification against it.

Modelling conventions:
* Python `float` arithmetic is idealized as exact arithmetic: real
  numbers (`ℝ`) where the code uses `np.exp`, rational numbers (`ℚ`)
  for the odds / normalization / margin functions, which are purely
  field-arithmetic and hence executable here.
* Python exceptions (`ZeroDivisionError` from `x / 0`, `ValueError` /
  `TypeError` from `math.factorial` on a negative or non-integral
  argument) are modelled with `Except PyError`.
* A goal-count argument, a Python number that may be non-integral, is
  modelled as a `ℚ`; it is integral exactly when its denominator is 1.
-/

/-- Python runtime errors that the embedded functions can raise. -/
inductive PyError : Type
  | valueError
  | typeError
  | zeroDivisionError
deriving DecidableEq, Repr

/-- Propositional test that an `Except` value is an error. -/
def isError {ε α : Type} : Except ε α → Bool
  | Except.error _ => true
  | Except.ok _ => false

/-- Value computed by `poisson_prob` on its non-raising path:
`(np.exp(-mean) * mean**goal) / factorial(goal)` (src/streamlit_app.py,
line 59), with `factorial` the exact integer factorial from `math`,
embedded as `Nat.factorial`. -/
noncomputable def poisson_pmf (mean : ℝ) (goal : ℕ) : ℝ :=
  Real.exp (-mean) * mean ^ goal / (Nat.factorial goal)

/-- Embedding of `poisson_prob(mean, goal)` (src/streamlit_app.py, lines
58-59). `math.factorial` raises `TypeError` on a non-integral argument
and `ValueError` on a negative one; on an integral non-negative `goal`
the function returns the Poisson mass with no validation of `mean`. -/
noncomputable def poisson_prob (mean : ℝ) (goal : ℚ) : Except PyError ℝ :=
  if goal.den ≠ 1 then Except.error PyError.typeError
  else if goal < 0 then Except.error PyError.valueError
  else Except.ok (poisson_pmf mean goal.num.toNat)

/-- Embedding of `calculate_probabilities(home_mean, away_mean, max_goals=5)`
(src/streamlit_app.py, lines 61-68): two passes build the per-side pmf
lists over `range(max_goals + 1)`, then the joint list of cells
`(i, j, home_probs[i] * away_probs[j])` is produced for `i` and `j` in
`range(max_goals + 1)`. List indexing is in range at every use, so it is
embedded with `List.getD`. -/
noncomputable def calculate_probabilities (home_mean away_mean : ℝ)
    (max_goals : ℕ := 5) : List (ℕ × ℕ × ℝ) :=
  let home_probs := (List.range (max_goals + 1)).map (fun g => poisson_pmf home_mean g)
  let away_probs := (List.range (max_goals + 1)).map (fun g => poisson_pmf away_mean g)
  (List.range (max_goals + 1)).flatMap (fun i =>
    (List.range (max_goals + 1)).map (fun j =>
      (i, j, home_probs.getD i 0 * away_probs.getD j 0)))

/-- Embedding of `odds_implied_probability(odds)` (src/streamlit_app.py,
lines 70-71): `1 / odds`, with Python's `ZeroDivisionError` on a zero
divisor and no other validation. -/
def odds_implied_probability (odds : ℚ) : Except PyError ℚ :=
  if odds = 0 then Except.error PyError.zeroDivisionError
  else Except.ok (1 / odds)

/-- Embedding of `normalize_probs(home, draw, away)` (src/streamlit_app.py,
lines 73-75): divide each argument by the total, raising
`ZeroDivisionError` when the total is zero. -/
def normalize_probs (home draw away : ℚ) : Except PyError (ℚ × ℚ × ℚ) :=
  let total := home + draw + away
  if total = 0 then Except.error PyError.zeroDivisionError
  else Except.ok (home / total, draw / total, away / total)

/-- Python's `round` to the nearest integer, ties to the even integer. -/
def roundHalfEven (x : ℚ) : ℤ :=
  let f := Rat.floor x
  if x - f < 1/2 then f
  else if 1/2 < x - f then f + 1
  else if f % 2 = 0 then f else f + 1

/-- Embedding of `calculate_margin_difference(odds, margin_target)`
(src/streamlit_app.py, lines 55-56): `round(margin_target - odds, 2)`. -/
def calculate_margin_difference (odds margin_target : ℚ) : ℚ :=
  (roundHalfEven ((margin_target - odds) * 100) : ℚ) / 100

lemma rat_floor_eq (q : ℚ) : Rat.floor q = ⌊q⌋ := by
  rw [Rat.floor_def', Rat.floor_def]

/-- Contract of `score_probs_df.sort_values("Probability", ascending=False)`
(src/streamlit_app.py, line 100). Pandas documents the result as the rows
rearranged so the sort column is descending; the default sort kind
(`quicksort`) is documented as not stable, so the order of rows with equal
probability is not determined by the source. The call is therefore embedded
as a relation: `s` is a valid sort result iff it is a permutation of the
input that is non-increasing in the probability component. -/
def sortValuesProbDesc (matrix s : List (ℕ × ℕ × ℝ)) : Prop :=
  s.Perm matrix ∧ s.Sorted (fun c d => d.2.2 ≤ c.2.2)

/-- Embedding of `top_scores` (src/streamlit_app.py, lines 100-102):
`sort_values("Probability", ascending=False).head(5)`, as a relation between
the score matrix and the produced top list. -/
def top_scores (matrix out : List (ℕ × ℕ × ℝ)) : Prop :=
  ∃ s, sortValuesProbDesc matrix s ∧ out = s.take 5

/-- Statement that a ranked list breaks probability ties by the canonical
enumeration order of cells: home goals ascending, then away goals
ascending. -/
def enumTieBreak (out : List (ℕ × ℕ × ℝ)) : Prop :=
  out.Pairwise (fun c d => c.2.2 = d.2.2 → c.1 < d.1 ∨ (c.1 = d.1 ∧ c.2.1 < d.2.1))

/-- Inputs that the sidebar of `src/streamlit_app.py` (lines 22-43) hands to
the engine functions on submit. -/
structure EngineInput where
  goals_home_mean : ℝ
  goals_away_mean : ℝ
  home_win_odds : ℚ
  draw_odds : ℚ
  away_win_odds : ℚ
  over_odds : ℚ
  under_odds : ℚ
  match_results_margin : ℚ
  over_under_margin : ℚ

/-- Embedding of the computational part of the submit handler
(src/streamlit_app.py, lines 78-123): the score matrix from
`calculate_probabilities` with the default `max_goals = 5`, the normalized
three-way outcome probabilities obtained by feeding the three implied
probabilities to `normalize_probs`, and the five margin differences. -/
noncomputable def run_prediction (inp : EngineInput) :
    List (ℕ × ℕ × ℝ) × Except PyError (ℚ × ℚ × ℚ) × (ℚ × ℚ × ℚ × ℚ × ℚ) :=
  let match_probs := calculate_probabilities inp.goals_home_mean inp.goals_away_mean 5
  let normalized : Except PyError (ℚ × ℚ × ℚ) := do
    let h ← odds_implied_probability inp.home_win_odds
    let d ← odds_implied_probability inp.draw_odds
    let a ← odds_implied_probability inp.away_win_odds
    normalize_probs h d a
  let margins :=
    (calculate_margin_difference inp.home_win_odds inp.match_results_margin,
     calculate_margin_difference inp.draw_odds inp.match_results_margin,
     calculate_margin_difference inp.away_win_odds inp.match_results_margin,
     calculate_margin_difference inp.over_odds inp.over_under_margin,
     calculate_margin_difference inp.under_odds inp.over_under_margin)
  (match_probs, normalized, margins)

example : odds_implied_probability (5/2) = Except.ok (2/5) := by
  norm_num [odds_implied_probability]
example : odds_implied_probability (-2) = Except.ok (-(1/2)) := by
  norm_num [odds_implied_probability]
example : normalize_probs (2/5) (5/16) (10/31) =
    Except.ok (992/2567, 775/2567, 800/2567) := by
  norm_num [normalize_probs]
example : roundHalfEven (5/2) = 2 := by
  have h : ⌊(5:ℚ)/2⌋ = 2 := by rw [Int.floor_eq_iff] <;> norm_num
  rw [roundHalfEven, rat_floor_eq, h]; norm_num
example : roundHalfEven (7/2) = 4 := by
  have h : ⌊(7:ℚ)/2⌋ = 3 := by rw [Int.floor_eq_iff] <;> norm_num
  rw [roundHalfEven, rat_floor_eq, h]; norm_num
example : roundHalfEven (-1/2) = 0 := by
  have h : ⌊(-1:ℚ)/2⌋ = -1 := by rw [Int.floor_eq_iff] <;> norm_num
  rw [roundHalfEven, rat_floor_eq, h]; norm_num
example : calculate_margin_difference (5/2) (99/20) = 49/20 := by
  have h : ((99:ℚ)/20 - 5/2) * 100 = 245 := by norm_num
  have h2 : ⌊(245:ℚ)⌋ = 245 := by
    rw [Int.floor_eq_iff] <;> norm_num
  rw [calculate_margin_difference, roundHalfEven, h, rat_floor_eq, h2]; norm_num

lemma getD_map_range (f : ℕ → ℝ) (n i : ℕ) (hi : i < n) :
    ((List.range n).map f).getD i 0 = f i := by
  rw [List.getD_eq_getElem?_getD, List.getElem?_map, List.getElem?_range hi]
  rfl

lemma flatMap_congr_mem {α β : Type} (l : List α) (f g : α → List β)
    (hfg : ∀ x ∈ l, f x = g x) : l.flatMap f = l.flatMap g := by
  induction l with
  | nil => rfl
  | cons x xs ih =>
    simp only [List.flatMap_cons]
    rw [hfg x (List.mem_cons_self x xs),
      ih (fun y hy => hfg y (List.mem_cons_of_mem x hy))]

lemma map_prob_calculate_probabilities (h a : ℝ) (m : ℕ) :
    (calculate_probabilities h a m).map (fun c => c.2.2) =
      (List.range (m + 1)).flatMap (fun i =>
        (List.range (m + 1)).map (fun j => poisson_pmf h i * poisson_pmf a j)) := by
  unfold calculate_probabilities
  rw [List.map_flatMap]
  apply flatMap_congr_mem
  intro i hi
  rw [List.map_map]
  apply List.map_congr_left
  intro j hj
  simp only [Function.comp_apply]
  rw [getD_map_range _ _ _ (List.mem_range.1 hi), getD_map_range _ _ _ (List.mem_range.1 hj)]

lemma sum_flatMap_mul (F G : ℕ → ℝ) (xs ys : List ℕ) :
    ((xs.flatMap (fun i => ys.map (fun j => F i * G j))).sum) =
      (xs.map F).sum * (ys.map G).sum := by
  induction xs with
  | nil => simp
  | cons x xs ih =>
    simp only [List.flatMap_cons, List.sum_append, List.map_cons, List.sum_cons, ih, add_mul]
    congr 1
    exact List.sum_map_mul_left ys G (F x)

lemma list_sum_range_eq (f : ℕ → ℝ) (n : ℕ) :
    ((List.range n).map f).sum = ∑ i ∈ Finset.range n, f i := by
  induction n with
  | zero => simp
  | succ k ih =>
    rw [List.range_succ, List.map_append, List.sum_append, Finset.sum_range_succ, ih]
    simp

lemma poisson_pmf_nonneg (mean : ℝ) (hm : 0 ≤ mean) (k : ℕ) : 0 ≤ poisson_pmf mean k := by
  unfold poisson_pmf
  exact div_nonneg (mul_nonneg (Real.exp_pos _).le (pow_nonneg hm k)) (Nat.cast_nonneg _)

lemma poisson_pmf_le_one (mean : ℝ) (hm : 0 ≤ mean) (k : ℕ) : poisson_pmf mean k ≤ 1 := by
  unfold poisson_pmf
  rw [mul_div_assoc]
  calc Real.exp (-mean) * (mean ^ k / (Nat.factorial k))
      ≤ Real.exp (-mean) * Real.exp mean :=
        mul_le_mul_of_nonneg_left (Real.pow_div_factorial_le_exp mean hm k) (Real.exp_pos _).le
    _ = 1 := by rw [← Real.exp_add]; simp

lemma range_pmf_sum_le_one (mean : ℝ) (hm : 0 ≤ mean) (n : ℕ) :
    ((List.range n).map (fun g => poisson_pmf mean g)).sum ≤ 1 := by
  rw [list_sum_range_eq]
  have heq : ∑ i ∈ Finset.range n, poisson_pmf mean i =
      Real.exp (-mean) * ∑ i ∈ Finset.range n, mean ^ i / (Nat.factorial i) := by
    rw [Finset.mul_sum]
    apply Finset.sum_congr rfl
    intro i _
    unfold poisson_pmf
    ring
  rw [heq]
  calc Real.exp (-mean) * ∑ i ∈ Finset.range n, mean ^ i / (Nat.factorial i)
      ≤ Real.exp (-mean) * Real.exp mean :=
        mul_le_mul_of_nonneg_left (Real.sum_le_exp_of_nonneg hm n) (Real.exp_pos _).le
    _ = 1 := by rw [← Real.exp_add]; simp

lemma range_pmf_sum_nonneg (mean : ℝ) (hm : 0 ≤ mean) (n : ℕ) :
    0 ≤ ((List.range n).map (fun g => poisson_pmf mean g)).sum := by
  apply List.sum_nonneg
  intro x hx
  obtain ⟨g, _, rfl⟩ := List.mem_map.1 hx
  exact poisson_pmf_nonneg mean hm g

lemma mem_calculate_probabilities (h a : ℝ) (m i j : ℕ) (p : ℝ) :
    (i, j, p) ∈ calculate_probabilities h a m ↔
      i ≤ m ∧ j ≤ m ∧ p = poisson_pmf h i * poisson_pmf a j := by
  unfold calculate_probabilities
  simp only [List.mem_flatMap, List.mem_map, List.mem_range, Prod.mk.injEq]
  constructor
  · rintro ⟨x, hx, y, hy, rfl, rfl, rfl⟩
    rw [getD_map_range _ _ _ hx, getD_map_range _ _ _ hy]
    exact ⟨Nat.lt_succ_iff.1 hx, Nat.lt_succ_iff.1 hy, rfl⟩
  · rintro ⟨hi, hj, rfl⟩
    refine ⟨i, Nat.lt_succ_of_le hi, j, Nat.lt_succ_of_le hj, rfl, rfl, ?_⟩
    rw [getD_map_range _ _ _ (Nat.lt_succ_of_le hi), getD_map_range _ _ _ (Nat.lt_succ_of_le hj)]

lemma length_calculate_probabilities (h a : ℝ) (m : ℕ) :
    (calculate_probabilities h a m).length = (m + 1) * (m + 1) := by
  unfold calculate_probabilities
  rw [List.length_flatMap]
  simp [Function.comp_def, List.map_const']

lemma poisson_pmf_pos (mean : ℝ) (hm : 0 < mean) (k : ℕ) : 0 < poisson_pmf mean k := by
  unfold poisson_pmf
  exact div_pos (mul_pos (Real.exp_pos _) (pow_pos hm k))
    (Nat.cast_pos.2 (Nat.factorial_pos k))

lemma range_pmf_sum_lt_one (mean : ℝ) (hm : 0 < mean) (n : ℕ) :
    ((List.range n).map (fun g => poisson_pmf mean g)).sum < 1 := by
  have hstep : ((List.range n).map (fun g => poisson_pmf mean g)).sum <
      ((List.range (n + 1)).map (fun g => poisson_pmf mean g)).sum := by
    rw [List.range_succ, List.map_append, List.sum_append]
    simp only [List.map_cons, List.map_nil, List.sum_cons, List.sum_nil]
    have := poisson_pmf_pos mean hm n
    linarith
  exact lt_of_lt_of_le hstep (range_pmf_sum_le_one mean hm.le (n + 1))

/-- C1: for every mean > 0 and every integer goal count k ≥ 0, `poisson_prob`
succeeds and returns `exp(-mean) * mean^k / k!`, where `k!` is the exact
integer factorial `Nat.factorial` — exact at every `k`, in particular equal to
the exact integer 2432902008176640000 at `k = 20`. -/
theorem C1_poisson_prob_formula (mean : ℝ) (k : ℕ) (hmean : 0 < mean) :
    poisson_prob mean (k : ℚ) =
      Except.ok (Real.exp (-mean) * mean ^ k / (Nat.factorial k)) ∧
    Nat.factorial 20 = 2432902008176640000 := by
  constructor
  · have hden : ((k : ℚ)).den = 1 := Rat.den_natCast k
    have hnum : ((k : ℚ)).num = (k : ℤ) := Rat.num_natCast k
    have hnot : ¬((k : ℚ) < 0) := not_lt.2 (Nat.cast_nonneg k)
    simp [poisson_prob, hden, hnot, hnum, poisson_pmf]
  · norm_num [Nat.factorial]

/-- Witness for C1 at mean = 1 and k = 3. -/
theorem C1_poisson_prob_formula_witness :
    poisson_prob 1 ((3 : ℕ) : ℚ) =
      Except.ok (Real.exp (-1) * 1 ^ (3 : ℕ) / (Nat.factorial 3)) ∧
    Nat.factorial 20 = 2432902008176640000 :=
  C1_poisson_prob_formula 1 3 one_pos

/-- C2: for every homeMean > 0, awayMean > 0 and maxGoals ≥ 0, the matrix
returned by `calculate_probabilities` has one cell for every pair (i, j) with
i, j in [0, maxGoals] — it has exactly (maxGoals+1)² cells and cell membership
is characterized by i ≤ maxGoals, j ≤ maxGoals and probability
pmf(homeMean, i) * pmf(awayMean, j), the independence product with no
correlation adjustment. -/
theorem C2_calculate_probabilities_cells (h a : ℝ) (m : ℕ)
    (hh : 0 < h) (ha : 0 < a) :
    (calculate_probabilities h a m).length = (m + 1) * (m + 1) ∧
    ∀ i j : ℕ, ∀ p : ℝ,
      ((i, j, p) ∈ calculate_probabilities h a m ↔
        i ≤ m ∧ j ≤ m ∧ p = poisson_pmf h i * poisson_pmf a j) :=
  ⟨length_calculate_probabilities h a m, fun i j p => mem_calculate_probabilities h a m i j p⟩

/-- Witness for C2 at homeMean = awayMean = 1 and maxGoals = 5. -/
theorem C2_calculate_probabilities_cells_witness :
    (calculate_probabilities 1 1 5).length = (5 + 1) * (5 + 1) ∧
    ∀ i j : ℕ, ∀ p : ℝ,
      ((i, j, p) ∈ calculate_probabilities 1 1 5 ↔
        i ≤ 5 ∧ j ≤ 5 ∧ p = poisson_pmf 1 i * poisson_pmf 1 j) :=
  C2_calculate_probabilities_cells 1 1 5 one_pos one_pos

/-- C4: for every homeMean > 0, awayMean > 0 and maxGoals ≥ 0, every cell
probability of the matrix lies in [0, 1] and the total matrix mass is ≤ 1; in
fact it is strictly below 1 — the mass beyond maxGoals is discarded and the
matrix handed to the ranking step is not renormalized. -/
theorem C4_matrix_mass (h a : ℝ) (m : ℕ) (hh : 0 < h) (ha : 0 < a) :
    (∀ c ∈ calculate_probabilities h a m, 0 ≤ c.2.2 ∧ c.2.2 ≤ 1) ∧
    ((calculate_probabilities h a m).map (fun c => c.2.2)).sum ≤ 1 ∧
    ((calculate_probabilities h a m).map (fun c => c.2.2)).sum < 1 := by
  have hsum : ((calculate_probabilities h a m).map (fun c => c.2.2)).sum =
      ((List.range (m + 1)).map (fun g => poisson_pmf h g)).sum *
        ((List.range (m + 1)).map (fun g => poisson_pmf a g)).sum := by
    rw [map_prob_calculate_probabilities]
    exact sum_flatMap_mul (poisson_pmf h) (poisson_pmf a) _ _
  have hlt : ((calculate_probabilities h a m).map (fun c => c.2.2)).sum < 1 := by
    rw [hsum]
    calc ((List.range (m + 1)).map (fun g => poisson_pmf h g)).sum *
          ((List.range (m + 1)).map (fun g => poisson_pmf a g)).sum
        ≤ ((List.range (m + 1)).map (fun g => poisson_pmf h g)).sum :=
          mul_le_of_le_one_right (range_pmf_sum_nonneg h hh.le _)
            (range_pmf_sum_le_one a ha.le _)
      _ < 1 := range_pmf_sum_lt_one h hh _
  refine ⟨?_, hlt.le, hlt⟩
  rintro ⟨i, j, p⟩ hc
  obtain ⟨hi, hj, rfl⟩ := (mem_calculate_probabilities h a m i j p).1 hc
  constructor
  · exact mul_nonneg (poisson_pmf_nonneg h hh.le i) (poisson_pmf_nonneg a ha.le j)
  · calc poisson_pmf h i * poisson_pmf a j ≤ 1 * 1 :=
        mul_le_mul (poisson_pmf_le_one h hh.le i) (poisson_pmf_le_one a ha.le j)
          (poisson_pmf_nonneg a ha.le j) zero_le_one
      _ = 1 := mul_one 1

/-- Witness for C4 at homeMean = awayMean = 1 and maxGoals = 5. -/
theorem C4_matrix_mass_witness :
    (∀ c ∈ calculate_probabilities 1 1 5, 0 ≤ c.2.2 ∧ c.2.2 ≤ 1) ∧
    ((calculate_probabilities 1 1 5).map (fun c => c.2.2)).sum ≤ 1 ∧
    ((calculate_probabilities 1 1 5).map (fun c => c.2.2)).sum < 1 :=
  C4_matrix_mass 1 1 5 one_pos one_pos

/-- C3 (amended): on a matrix with at least 5 cells, every list that
`top_scores` can return has exactly 5 cells in non-increasing probability
order. The tie-break clause of the original claim is dropped: the source
sorts with the pandas default quicksort, which does not fix the order of
equal-probability cells. -/
theorem C3_top_scores_sorted (matrix out : List (ℕ × ℕ × ℝ))
    (hlen : 5 ≤ matrix.length) (hout : top_scores matrix out) :
    out.length = 5 ∧ out.Sorted (fun c d => d.2.2 ≤ c.2.2) := by
  obtain ⟨s, ⟨hperm, hsort⟩, rfl⟩ := hout
  constructor
  · rw [List.length_take, hperm.length_eq]
    exact min_eq_left hlen
  · exact List.Pairwise.sublist (List.take_sublist 5 s) hsort

/-- Witness for C3 on an explicit descending 6-cell matrix. -/
theorem C3_top_scores_sorted_witness :
    (([((0:ℕ), (0:ℕ), (1:ℝ)/2), (0, 1, 1/4), (1, 0, 1/8), (1, 1, 1/16),
        (2, 0, 1/32), (2, 1, 1/64)] : List (ℕ × ℕ × ℝ)).take 5).length = 5 ∧
    (([((0:ℕ), (0:ℕ), (1:ℝ)/2), (0, 1, 1/4), (1, 0, 1/8), (1, 1, 1/16),
        (2, 0, 1/32), (2, 1, 1/64)] : List (ℕ × ℕ × ℝ)).take 5).Sorted
      (fun c d => d.2.2 ≤ c.2.2) :=
  C3_top_scores_sorted _ _ (by norm_num)
    ⟨[((0:ℕ), (0:ℕ), (1:ℝ)/2), (0, 1, 1/4), (1, 0, 1/8), (1, 1, 1/16),
        (2, 0, 1/32), (2, 1, 1/64)],
      ⟨List.Perm.refl _, by norm_num [List.sorted_cons]⟩, rfl⟩

/-- C3 counterexample: a valid `top_scores` result on a 6-cell matrix with a
probability tie that does not respect the canonical enumeration order — the
sorting contract of the source does not force the tie-break the claim
states. -/
theorem C3_top_scores_tiebreak_cex :
    5 ≤ ([((0:ℕ), (0:ℕ), (1:ℝ)/2), (0, 1, 1/4), (1, 0, 1/4), (1, 1, 1/8),
        (2, 0, 1/16), (2, 1, 1/32)] : List (ℕ × ℕ × ℝ)).length ∧
    top_scores
      [((0:ℕ), (0:ℕ), (1:ℝ)/2), (0, 1, 1/4), (1, 0, 1/4), (1, 1, 1/8),
        (2, 0, 1/16), (2, 1, 1/32)]
      [((0:ℕ), (0:ℕ), (1:ℝ)/2), (1, 0, 1/4), (0, 1, 1/4), (1, 1, 1/8),
        (2, 0, 1/16)] ∧
    ¬ enumTieBreak
      [((0:ℕ), (0:ℕ), (1:ℝ)/2), (1, 0, 1/4), (0, 1, 1/4), (1, 1, 1/8),
        (2, 0, 1/16)] := by
  refine ⟨by norm_num, ?_, ?_⟩
  · refine ⟨[((0:ℕ), (0:ℕ), (1:ℝ)/2), (1, 0, 1/4), (0, 1, 1/4), (1, 1, 1/8),
        (2, 0, 1/16), (2, 1, 1/32)], ⟨?_, ?_⟩, rfl⟩
    · exact List.Perm.cons _ (List.Perm.swap _ _ _)
    · norm_num [List.sorted_cons]
  · intro hA
    unfold enumTieBreak at hA
    have h1 := (List.pairwise_cons.1 (List.pairwise_cons.1 hA).2).1
    have h2 := h1 (0, 1, 1/4) (by simp)
    norm_num at h2

/-- C5 counterexample: for the odds scenario 2.50 / 3.20 / 3.10 the exact
normalized draw probability is 775/2567 = 0.3019088..., which differs from the
claimed value 0.301923 by about 1.4e-5 — more than the 6-decimal precision the
claim quotes. -/
theorem C5_normalized_values_cex :
    normalize_probs (2/5) (5/16) (10/31) =
      Except.ok (992/2567, 775/2567, 800/2567) ∧
    ¬ |(775/2567 : ℚ) - 301923/1000000| < 1/100000 := by
  constructor
  · norm_num [normalize_probs]
  · intro hcontra
    rw [abs_lt] at hcontra
    have hlow := hcontra.1
    norm_num at hlow

/-- C5 (amended): for all positive inputs `normalize_probs` returns
(p1/s, p2/s, p3/s) with s = p1+p2+p3 and the outputs sum to exactly 1; for raw
implied probabilities 0.4, 0.3125 and 1/3.10 the normalized outputs are
992/2567, 775/2567, 800/2567 ≈ 0.386443, 0.301909, 0.311648 (each within
1e-6), not the 0.386445, 0.301923, 0.311632 the original claim quotes. -/
theorem C5_normalize_probs_correct :
    (∀ p1 p2 p3 : ℚ, 0 < p1 → 0 < p2 → 0 < p3 →
      normalize_probs p1 p2 p3 =
        Except.ok (p1 / (p1+p2+p3), p2 / (p1+p2+p3), p3 / (p1+p2+p3)) ∧
      p1 / (p1+p2+p3) + p2 / (p1+p2+p3) + p3 / (p1+p2+p3) = 1) ∧
    (normalize_probs (2/5) (5/16) (10/31) =
        Except.ok (992/2567, 775/2567, 800/2567) ∧
      |(992/2567 : ℚ) - 386443/1000000| < 1/1000000 ∧
      |(775/2567 : ℚ) - 301909/1000000| < 1/1000000 ∧
      |(800/2567 : ℚ) - 311648/1000000| < 1/1000000) := by
  constructor
  · intro p1 p2 p3 h1 h2 h3
    have hs : 0 < p1 + p2 + p3 := by positivity
    constructor
    · simp [normalize_probs, hs.ne']
    · rw [div_add_div_same, div_add_div_same, div_self hs.ne']
  · refine ⟨by norm_num [normalize_probs], ?_, ?_, ?_⟩ <;>
      (rw [abs_lt]; constructor) <;> norm_num

/-- Witness for C5 at p1 = p2 = p3 = 1. -/
theorem C5_normalize_probs_correct_witness :
    normalize_probs 1 1 1 =
      Except.ok (1 / (1+1+1), 1 / (1+1+1), 1 / (1+1+1)) ∧
    1 / (1+1+1) + 1 / (1+1+1) + (1:ℚ) / (1+1+1) = 1 :=
  C5_normalize_probs_correct.1 1 1 1 one_pos one_pos one_pos

/-- C6 counterexample: odds = -2 is ≤ 0, yet the code does not fail — it
returns 1/(-2) = -0.5. -/
theorem C6_negative_odds_cex :
    odds_implied_probability (-2) = Except.ok (-(1/2)) ∧ ((-2 : ℚ) ≤ 0) := by
  constructor
  · norm_num [odds_implied_probability]
  · norm_num

/-- C6 (amended): `odds_implied_probability` returns 1/odds for every nonzero
odds — in particular for every odds > 0 — and fails (with a
`ZeroDivisionError`, not a domain check) exactly when odds = 0; negative odds
are not rejected. -/
theorem C6_odds_implied_probability_spec (odds : ℚ) :
    (odds ≠ 0 → odds_implied_probability odds = Except.ok (1 / odds)) ∧
    (isError (odds_implied_probability odds) = true ↔ odds = 0) := by
  constructor
  · intro h
    simp [odds_implied_probability, h]
  · by_cases h : odds = 0
    · simp [odds_implied_probability, h, isError]
    · simp [odds_implied_probability, h, isError]

/-- Witness for C6 at odds = 2.50. -/
theorem C6_odds_implied_probability_spec_witness :
    odds_implied_probability (5/2) = Except.ok (1 / (5/2)) :=
  (C6_odds_implied_probability_spec (5/2)).1 (by norm_num)

/-- C7 counterexample: mean = -1 violates the claimed mean > 0 constraint, yet
`poisson_prob(-1, 0)` does not fail — it returns exp(1). -/
theorem C7_negative_mean_cex :
    poisson_prob (-1) 0 = Except.ok (Real.exp 1) ∧ ((-1 : ℝ) < 0) := by
  refine ⟨?_, by norm_num⟩
  simp [poisson_prob, poisson_pmf, Nat.factorial]

/-- C7 (amended): `poisson_prob` fails exactly when the goal count is
non-integral (`TypeError` from `math.factorial`) or negative (`ValueError`);
a negative mean is not rejected. -/
theorem C7_poisson_prob_error_iff (mean : ℝ) (goal : ℚ) :
    isError (poisson_prob mean goal) = true ↔ (goal.den ≠ 1 ∨ goal < 0) := by
  by_cases h1 : goal.den = 1
  · by_cases h2 : goal < 0
    · simp [poisson_prob, isError, h1, h2]
    · simp [poisson_prob, isError, h1, h2]
  · simp [poisson_prob, isError, h1]

lemma roundHalfEven_sub_le (x : ℚ) : |(roundHalfEven x : ℚ) - x| ≤ 1/2 := by
  simp only [roundHalfEven, rat_floor_eq]
  have h0 : (0:ℚ) ≤ x - ⌊x⌋ := by
    rw [sub_nonneg]; exact Int.floor_le x
  have h1 : x - ⌊x⌋ < 1 := by
    have := Int.lt_floor_add_one x
    linarith
  by_cases hc1 : x - ⌊x⌋ < 1/2
  · rw [if_pos hc1, abs_le]
    constructor
    · linarith
    · linarith
  · rw [if_neg hc1]
    by_cases hc2 : 1/2 < x - ⌊x⌋
    · rw [if_pos hc2, abs_le]
      push_cast
      constructor
      · linarith
      · linarith
    · rw [if_neg hc2]
      have hx : x - ⌊x⌋ = 1/2 := le_antisymm (not_lt.1 hc2) (not_lt.1 hc1)
      by_cases hc3 : ⌊x⌋ % 2 = 0
      · rw [if_pos hc3, abs_le]
        constructor
        · linarith
        · linarith
      · rw [if_neg hc3, abs_le]
        push_cast
        constructor
        · linarith
        · linarith

/-- C8: `calculate_margin_difference` returns target - odds rounded to two
decimal places — the result times 100 is an integer and the result is within
half of 0.01 of the exact difference — and on the concrete scenario
difference(target = 4.95, quoted = 2.50) = 2.45. -/
theorem C8_margin_difference_spec (odds target : ℚ) :
    ((calculate_margin_difference odds target * 100).den = 1 ∧
      |calculate_margin_difference odds target - (target - odds)| ≤ 1/200) ∧
    calculate_margin_difference (5/2) (99/20) = 49/20 := by
  refine ⟨⟨?_, ?_⟩, ?_⟩
  · unfold calculate_margin_difference
    rw [div_mul_cancel₀ _ (show (100:ℚ) ≠ 0 by norm_num)]
    exact Rat.den_intCast _
  · unfold calculate_margin_difference
    have heq : (roundHalfEven ((target - odds) * 100) : ℚ) / 100 - (target - odds) =
        ((roundHalfEven ((target - odds) * 100) : ℚ) - (target - odds) * 100) / 100 := by
      ring
    rw [heq, abs_div, abs_of_pos (show (0:ℚ) < 100 by norm_num)]
    have h := roundHalfEven_sub_le ((target - odds) * 100)
    linarith
  · have h : ((99:ℚ)/20 - 5/2) * 100 = 245 := by norm_num
    have h2 : ⌊(245:ℚ)⌋ = 245 := by
      rw [Int.floor_eq_iff]
      constructor
      · norm_num
      · norm_num
    rw [calculate_margin_difference, roundHalfEven, h, rat_floor_eq, h2]
    norm_num

/-- C9: the engine computation is deterministic — it is a pure function of the
input record, so two invocations on equal inputs produce equal outputs (score
matrix, normalized outcome triple and margin differences alike); no hidden
state influences the result. -/
theorem C9_run_prediction_deterministic (x y : EngineInput) (h : x = y) :
    run_prediction x = run_prediction y := by
  rw [h]

/-- Witness for C9 at the default sidebar inputs (means 1.2 / 1.1, odds
2.50 / 3.20 / 3.10 / 2.40 / 1.55, margins 4.95 / 6.18). -/
theorem C9_run_prediction_deterministic_witness :
    run_prediction ⟨1.2, 1.1, 5/2, 16/5, 31/10, 12/5, 31/20, 99/20, 309/50⟩ =
      run_prediction ⟨1.2, 1.1, 5/2, 16/5, 31/10, 12/5, 31/20, 99/20, 309/50⟩ :=
  C9_run_prediction_deterministic _ _ rfl

/-- C10: `normalize_probs` is scale-invariant — multiplying all three inputs
by the same c > 0 leaves the normalized triple unchanged, for every input
triple with nonzero sum. -/
theorem C10_normalize_probs_scale_invariant (c p1 p2 p3 : ℚ) (hc : 0 < c)
    (hs : p1 + p2 + p3 ≠ 0) :
    normalize_probs (c * p1) (c * p2) (c * p3) = normalize_probs p1 p2 p3 := by
  have hcs : c * p1 + c * p2 + c * p3 = c * (p1 + p2 + p3) := by ring
  have hne : c * (p1 + p2 + p3) ≠ 0 := mul_ne_zero hc.ne' hs
  simp only [normalize_probs, hcs]
  rw [if_neg hne, if_neg hs, mul_div_mul_left _ _ hc.ne', mul_div_mul_left _ _ hc.ne',
    mul_div_mul_left _ _ hc.ne']

/-- Witness for C10 at c = 2 and p1 = p2 = p3 = 1. -/
theorem C10_normalize_probs_scale_invariant_witness :
    normalize_probs (2 * 1) (2 * 1) (2 * 1) = normalize_probs 1 1 1 :=
  C10_normalize_probs_scale_invariant 2 1 1 1 (by norm_num) (by norm_num)
